import Mathlib

/-!
Verification of the racecard scraper in `backend/scraper/race.py`.

The Python module works on JSON-like dictionaries (races, horses, venue
blocks, day blocks).  We embed those values shallowly: a `JVal` is a
JSON-like value, a horse dictionary is an association list of string keys
to `JVal`s (Python dicts preserve insertion order, assignment replaces a
value in place, a fresh key is appended at the end), and the `RaceData`
aggregate keeps its `date`, `days` and `venues` members as structure
fields, with every other dictionary entry kept in generic `extra`
association lists.
-/

namespace Keiba

/-- JSON-like values stored in the scraper's dictionaries. -/
inductive JVal where
  | str : String → JVal
  | nat : Nat → JVal
  | arr : List JVal → JVal
  | obj : List (String × JVal) → JVal

/-- A Python dictionary with string keys, in insertion order. -/
abbrev Dict := List (String × JVal)

/-- Association-list lookup (Python `d.get(k)` / `d[k]`). -/
def alookup {β : Type} : List (String × β) → String → Option β
  | [], _ => none
  | (k, v) :: t, key => if k = key then some v else alookup t key

/-- Lookup in a horse dictionary. -/
def dlookup (h : Dict) (k : String) : Option JVal := alookup h k

/-- Python `d[k] = v`: replace in place if present, else append. -/
def dset : Dict → String → JVal → Dict
  | [], key, v => [(key, v)]
  | (k, w) :: t, key, v => if k = key then (k, v) :: t else (k, w) :: dset t key v

/-- Python truthiness of a `JVal`. -/
def jtruthy : JVal → Bool
  | .str s => s ≠ ""
  | .nat n => n ≠ 0
  | .arr l => !l.isEmpty
  | .obj l => !l.isEmpty

/-- String value of a dictionary entry; missing or non-string entries read
as the empty string (the scraper only ever stores strings there). -/
def getStr (h : Dict) (k : String) : String :=
  match dlookup h k with
  | some (.str s) => s
  | _ => ""

/-- A race dictionary: its `horses` list and every other entry. -/
structure RaceJ where
  horses : List Dict
  extra : Dict

/-- A venue dictionary: its `races` list and every other entry. -/
structure VenueJ where
  races : List RaceJ
  extra : Dict

/-- A day block: its `venues` list and every other entry. -/
structure DayJ where
  venues : List VenueJ
  extra : Dict

/-- The `RaceData` aggregate built by `parse_syutsuba_html` and merged by
`scrape_race_data`: a base date, the per-day view and the flat venue view. -/
structure RData where
  date : String
  days : List (String × DayJ)
  venues : List VenueJ

/-! ### Output projection: `sanitize_race_data` -/

/-- The keys `sanitize_race_data` pops from every horse dictionary. -/
def SANITIZE_KEYS : List String := ["odds", "detail_url", "jockey_url"]

/-- Python `h.pop(key, None)` for the three sanitize keys. -/
def sanitizeHorse (h : Dict) : Dict :=
  h.filter (fun kv => !(SANITIZE_KEYS.contains kv.1))

/-- The inner loop of `clean_venues` over one race. -/
def sanitizeRace (r : RaceJ) : RaceJ :=
  { r with horses := r.horses.map sanitizeHorse }

/-- The inner `clean_venues`: strip the sanitize keys from every horse of every race. -/
def cleanVenues (vs : List VenueJ) : List VenueJ :=
  vs.map (fun v => { v with races := v.races.map sanitizeRace })

/-- Embedding of `sanitize_race_data`: deep-copy (pure here), then clean the flat venue
view and every per-day view. -/
def sanitize_race_data (d : RData) : RData :=
  { d with
    venues := cleanVenues d.venues,
    days := d.days.map (fun kv => (kv.1, { kv.2 with venues := cleanVenues kv.2.venues })) }

/-- All horse dictionaries of a venue-block list, in traversal order. -/
def venuesHorses (vs : List VenueJ) : List Dict :=
  vs.flatMap (fun v => v.races.flatMap RaceJ.horses)

/-- All horse dictionaries of the flat `venues` view, in traversal order. -/
def flatHorses (d : RData) : List Dict := venuesHorses d.venues

/-- All horse dictionaries of the per-day views, in traversal order. -/
def dayHorses (d : RData) : List Dict :=
  d.days.flatMap (fun kv => venuesHorses kv.2.venues)

lemma venuesHorses_map_horses (f : Dict → Dict) (vs : List VenueJ) :
    venuesHorses (vs.map (fun v =>
        { v with races := v.races.map (fun r =>
            { r with horses := r.horses.map f }) }))
      = (venuesHorses vs).map f := by
  simp [venuesHorses, List.flatMap_map, List.map_flatMap]

lemma sanitizeHorse_cons (kv : String × JVal) (t : Dict) :
    sanitizeHorse (kv :: t) =
      if kv.1 ∈ SANITIZE_KEYS then sanitizeHorse t else kv :: sanitizeHorse t := by
  by_cases h : kv.1 ∈ SANITIZE_KEYS <;> simp [sanitizeHorse, List.filter_cons, h]

lemma sanitizeHorse_idem (h : Dict) : sanitizeHorse (sanitizeHorse h) = sanitizeHorse h := by
  simp [sanitizeHorse, List.filter_filter]

lemma dlookup_filter_out (h : Dict) (k : String) (hk : k ∈ SANITIZE_KEYS) :
    dlookup (sanitizeHorse h) k = none := by
  induction h with
  | nil => rfl
  | cons kv t ih =>
    rw [sanitizeHorse_cons]
    by_cases hkk : kv.1 ∈ SANITIZE_KEYS
    · simpa [hkk] using ih
    · have hne : kv.1 ≠ k := fun he => hkk (he ▸ hk)
      simpa [hkk, dlookup, alookup, hne] using ih

lemma dlookup_filter_keep (h : Dict) (k : String) (hk : k ∉ SANITIZE_KEYS) :
    dlookup (sanitizeHorse h) k = dlookup h k := by
  induction h with
  | nil => rfl
  | cons kv t ih =>
    rw [sanitizeHorse_cons]
    by_cases hkk : kv.1 ∈ SANITIZE_KEYS
    · have hne : kv.1 ≠ k := fun he => hk (he ▸ hkk)
      simpa [hkk, dlookup, alookup, hne] using ih
    · by_cases he : kv.1 = k
      · have hk2 : k ∉ SANITIZE_KEYS := he ▸ hkk
        simp [hk2, dlookup, alookup, he]
      · simpa [hkk, dlookup, alookup, he] using ih

lemma cleanVenues_eq_map (vs : List VenueJ) :
    cleanVenues vs = vs.map (fun v =>
        { v with races := v.races.map (fun r =>
            { r with horses := r.horses.map sanitizeHorse }) }) := rfl

lemma flatHorses_sanitize (d : RData) :
    flatHorses (sanitize_race_data d) = (flatHorses d).map sanitizeHorse := by
  show venuesHorses (cleanVenues d.venues) = _
  rw [cleanVenues_eq_map, venuesHorses_map_horses]
  rfl

lemma dayHorses_sanitize (d : RData) :
    dayHorses (sanitize_race_data d) = (dayHorses d).map sanitizeHorse := by
  show ((d.days.map (fun kv => (kv.1,
      ({ kv.2 with venues := cleanVenues kv.2.venues } : DayJ)))).flatMap
        (fun kv => venuesHorses kv.2.venues)) = _
  rw [List.flatMap_map]
  simp only [cleanVenues_eq_map, venuesHorses_map_horses]
  rw [dayHorses, List.map_flatMap]

/-- C1: `sanitize_race_data` removes exactly `odds`, `detail_url`,
`jockey_url` from every horse dictionary of both the flat venue view and
every per-day view, leaves every other key and value (and all non-horse
parts of the aggregate) unchanged, and is idempotent. -/
theorem sanitize_race_data_exact_idempotent (d : RData) :
    sanitize_race_data (sanitize_race_data d) = sanitize_race_data d
    ∧ (∀ h ∈ flatHorses (sanitize_race_data d) ++ dayHorses (sanitize_race_data d),
        dlookup h "odds" = none ∧ dlookup h "detail_url" = none ∧
        dlookup h "jockey_url" = none)
    ∧ List.Forall₂ (fun h h' => ∀ k, k ∉ SANITIZE_KEYS →
        dlookup h' k = dlookup h k)
        (flatHorses d) (flatHorses (sanitize_race_data d))
    ∧ List.Forall₂ (fun h h' => ∀ k, k ∉ SANITIZE_KEYS →
        dlookup h' k = dlookup h k)
        (dayHorses d) (dayHorses (sanitize_race_data d))
    ∧ (sanitize_race_data d).date = d.date
    ∧ (sanitize_race_data d).days.map Prod.fst = d.days.map Prod.fst
    ∧ (sanitize_race_data d).days.map (fun kv => kv.2.extra) = d.days.map (fun kv => kv.2.extra)
    ∧ (sanitize_race_data d).venues.map VenueJ.extra = d.venues.map VenueJ.extra
    ∧ (sanitize_race_data d).venues.map (fun v => v.races.map RaceJ.extra)
        = d.venues.map (fun v => v.races.map RaceJ.extra) := by
  refine ⟨?_, ?_, ?_, ?_, rfl, ?_, ?_, ?_, ?_⟩
  · simp [sanitize_race_data, cleanVenues, sanitizeRace, Function.comp,
      sanitizeHorse_idem, List.map_map]
  · intro h hmem
    rw [flatHorses_sanitize, dayHorses_sanitize, ← List.map_append] at hmem
    rcases List.mem_map.1 hmem with ⟨h₀, -, rfl⟩
    exact ⟨dlookup_filter_out h₀ _ (by decide), dlookup_filter_out h₀ _ (by decide),
      dlookup_filter_out h₀ _ (by decide)⟩
  · rw [flatHorses_sanitize]
    exact List.forall₂_map_right_iff.2
      (List.forall₂_same.2 (fun h _ k hk => dlookup_filter_keep h k hk))
  · rw [dayHorses_sanitize]
    exact List.forall₂_map_right_iff.2
      (List.forall₂_same.2 (fun h _ k hk => dlookup_filter_keep h k hk))
  · simp [sanitize_race_data]
  · simp [sanitize_race_data]
  · simp [sanitize_race_data, cleanVenues]
  · simp [sanitize_race_data, cleanVenues, sanitizeRace]

/-- A concrete aggregate exercising the sanitizer. -/
def exHorse : Dict :=
  [("num", .str "1"), ("name", .str "ハヤブサ"), ("odds", .str "2.4"),
   ("jockey", .str "J1"), ("jockey_url", .str "https://x/j1"),
   ("detail_url", .str "https://x/h1"), ("weight", .str "57")]

def exRData : RData :=
  { date := "2025年10月11日（土）",
    days := [("saturday",
      { venues := [{ races := [{ horses := [exHorse],
                                 extra := [("race_id", .str "東京-01")] }],
                     extra := [("venue", .str "東京")] }],
        extra := [("date", .str "2025年10月11日（土）")] })],
    venues := [{ races := [{ horses := [exHorse],
                             extra := [("id", .str "東京-01")] }],
                 extra := [("name", .str "東京")] }] }

/-- Witness for C1 at a concrete aggregate: the hypotheses of the inner
universals are satisfiable and yield the removal/preservation facts. -/
theorem sanitize_race_data_exact_idempotent_witness :
    (dlookup (sanitizeHorse exHorse) "odds" = none ∧
     dlookup (sanitizeHorse exHorse) "detail_url" = none ∧
     dlookup (sanitizeHorse exHorse) "jockey_url" = none)
    ∧ sanitize_race_data (sanitize_race_data exRData) = sanitize_race_data exRData := by
  have h := sanitize_race_data_exact_idempotent exRData
  refine ⟨?_, h.1⟩
  have hm : sanitizeHorse exHorse ∈
      flatHorses (sanitize_race_data exRData) ++ dayHorses (sanitize_race_data exRData) := by
    rw [flatHorses_sanitize, dayHorses_sanitize, ← List.map_append]
    exact List.mem_map_of_mem _ (by simp [flatHorses, dayHorses, venuesHorses, exRData])
  exact h.2.1 _ hm

/-! ### Horse-detail enrichment: the overwrite guard of `scrape_race_data` -/

lemma dlookup_dset_self (h : Dict) (k : String) (v : JVal) :
    dlookup (dset h k v) k = some v := by
  induction h with
  | nil => simp [dset, dlookup, alookup]
  | cons kv t ih =>
    by_cases he : kv.1 = k <;> simp [dset, dlookup, alookup, he] at * <;> simpa using ih

lemma dlookup_dset_ne (h : Dict) (k : String) (v : JVal) (k' : String) (hne : k' ≠ k) :
    dlookup (dset h k v) k' = dlookup h k' := by
  induction h with
  | nil =>
    simp only [dset, dlookup, alookup]
    rw [if_neg fun he => hne he.symm]
  | cons kv t ih =>
    obtain ⟨k1, v1⟩ := kv
    by_cases he : k1 = k
    · subst he
      simp only [dset, if_pos rfl, dlookup, alookup]
      rw [if_neg fun hx => hne hx.symm, if_neg fun hx => hne hx.symm]
    · simp only [dset, if_neg he, dlookup, alookup]
      by_cases he2 : k1 = k'
      · rw [if_pos he2, if_pos he2]
      · rw [if_neg he2, if_neg he2]
        exact ih

/-- The result of `parse_horse_detail` as consumed by the enrichment loop. -/
structure HorseDetail where
  father : String
  mother : String
  trainer : String
  birthday : String
  color : String
  serei : String
  pastRaces : List JVal

/-- Python `if detail.get(key): h[key] = detail[key]` for one scalar key. -/
def setIfNonEmpty (h : Dict) (k : String) (s : String) : Dict :=
  if s = "" then h else dset h k (.str s)

/-- The overwrite step of the horse-detail enrichment (race.py lines
687–691): each scalar field is written only when the parsed value is
non-empty, and `pastRaces` only when the parsed history is non-empty. -/
def applyHorseDetail (h : Dict) (d : HorseDetail) : Dict :=
  let h1 := setIfNonEmpty h "father" d.father
  let h2 := setIfNonEmpty h1 "mother" d.mother
  let h3 := setIfNonEmpty h2 "trainer" d.trainer
  let h4 := setIfNonEmpty h3 "birthday" d.birthday
  let h5 := setIfNonEmpty h4 "color" d.color
  let h6 := setIfNonEmpty h5 "serei" d.serei
  if d.pastRaces.isEmpty then h6 else dset h6 "pastRaces" (.arr d.pastRaces)

lemma dlookup_setIfNonEmpty_self (h : Dict) (k : String) (s : String) :
    dlookup (setIfNonEmpty h k s) k = if s = "" then dlookup h k else some (.str s) := by
  by_cases hs : s = "" <;> simp [setIfNonEmpty, hs, dlookup_dset_self]

lemma dlookup_setIfNonEmpty_ne (h : Dict) (k : String) (s : String) (k' : String)
    (hne : k' ≠ k) :
    dlookup (setIfNonEmpty h k s) k' = dlookup h k' := by
  by_cases hs : s = "" <;> simp [setIfNonEmpty, hs, dlookup_dset_ne _ _ _ _ hne]

lemma applyHorseDetail_father (h : Dict) (d : HorseDetail) :
    dlookup (applyHorseDetail h d) "father"
      = if d.father = "" then dlookup h "father" else some (.str d.father) := by
  unfold applyHorseDetail
  by_cases hp : d.pastRaces.isEmpty <;>
    simp [hp, dlookup_dset_ne _ _ _ _ (by decide : ("father" : String) ≠ "pastRaces"),
      dlookup_setIfNonEmpty_ne _ _ _ _ (by decide : ("father" : String) ≠ "mother"),
      dlookup_setIfNonEmpty_ne _ _ _ _ (by decide : ("father" : String) ≠ "trainer"),
      dlookup_setIfNonEmpty_ne _ _ _ _ (by decide : ("father" : String) ≠ "birthday"),
      dlookup_setIfNonEmpty_ne _ _ _ _ (by decide : ("father" : String) ≠ "color"),
      dlookup_setIfNonEmpty_ne _ _ _ _ (by decide : ("father" : String) ≠ "serei"),
      dlookup_setIfNonEmpty_self]

lemma applyHorseDetail_mother (h : Dict) (d : HorseDetail) :
    dlookup (applyHorseDetail h d) "mother"
      = if d.mother = "" then dlookup h "mother" else some (.str d.mother) := by
  unfold applyHorseDetail
  by_cases hp : d.pastRaces.isEmpty <;>
    simp [hp, dlookup_dset_ne _ _ _ _ (by decide : ("mother" : String) ≠ "pastRaces"),
      dlookup_setIfNonEmpty_ne _ _ _ _ (by decide : ("mother" : String) ≠ "father"),
      dlookup_setIfNonEmpty_ne _ _ _ _ (by decide : ("mother" : String) ≠ "trainer"),
      dlookup_setIfNonEmpty_ne _ _ _ _ (by decide : ("mother" : String) ≠ "birthday"),
      dlookup_setIfNonEmpty_ne _ _ _ _ (by decide : ("mother" : String) ≠ "color"),
      dlookup_setIfNonEmpty_ne _ _ _ _ (by decide : ("mother" : String) ≠ "serei"),
      dlookup_setIfNonEmpty_self]

lemma applyHorseDetail_trainer (h : Dict) (d : HorseDetail) :
    dlookup (applyHorseDetail h d) "trainer"
      = if d.trainer = "" then dlookup h "trainer" else some (.str d.trainer) := by
  unfold applyHorseDetail
  by_cases hp : d.pastRaces.isEmpty <;>
    simp [hp, dlookup_dset_ne _ _ _ _ (by decide : ("trainer" : String) ≠ "pastRaces"),
      dlookup_setIfNonEmpty_ne _ _ _ _ (by decide : ("trainer" : String) ≠ "father"),
      dlookup_setIfNonEmpty_ne _ _ _ _ (by decide : ("trainer" : String) ≠ "mother"),
      dlookup_setIfNonEmpty_ne _ _ _ _ (by decide : ("trainer" : String) ≠ "birthday"),
      dlookup_setIfNonEmpty_ne _ _ _ _ (by decide : ("trainer" : String) ≠ "color"),
      dlookup_setIfNonEmpty_ne _ _ _ _ (by decide : ("trainer" : String) ≠ "serei"),
      dlookup_setIfNonEmpty_self]

lemma applyHorseDetail_birthday (h : Dict) (d : HorseDetail) :
    dlookup (applyHorseDetail h d) "birthday"
      = if d.birthday = "" then dlookup h "birthday" else some (.str d.birthday) := by
  unfold applyHorseDetail
  by_cases hp : d.pastRaces.isEmpty <;>
    simp [hp, dlookup_dset_ne _ _ _ _ (by decide : ("birthday" : String) ≠ "pastRaces"),
      dlookup_setIfNonEmpty_ne _ _ _ _ (by decide : ("birthday" : String) ≠ "father"),
      dlookup_setIfNonEmpty_ne _ _ _ _ (by decide : ("birthday" : String) ≠ "mother"),
      dlookup_setIfNonEmpty_ne _ _ _ _ (by decide : ("birthday" : String) ≠ "trainer"),
      dlookup_setIfNonEmpty_ne _ _ _ _ (by decide : ("birthday" : String) ≠ "color"),
      dlookup_setIfNonEmpty_ne _ _ _ _ (by decide : ("birthday" : String) ≠ "serei"),
      dlookup_setIfNonEmpty_self]

lemma applyHorseDetail_color (h : Dict) (d : HorseDetail) :
    dlookup (applyHorseDetail h d) "color"
      = if d.color = "" then dlookup h "color" else some (.str d.color) := by
  unfold applyHorseDetail
  by_cases hp : d.pastRaces.isEmpty <;>
    simp [hp, dlookup_dset_ne _ _ _ _ (by decide : ("color" : String) ≠ "pastRaces"),
      dlookup_setIfNonEmpty_ne _ _ _ _ (by decide : ("color" : String) ≠ "father"),
      dlookup_setIfNonEmpty_ne _ _ _ _ (by decide : ("color" : String) ≠ "mother"),
      dlookup_setIfNonEmpty_ne _ _ _ _ (by decide : ("color" : String) ≠ "trainer"),
      dlookup_setIfNonEmpty_ne _ _ _ _ (by decide : ("color" : String) ≠ "birthday"),
      dlookup_setIfNonEmpty_ne _ _ _ _ (by decide : ("color" : String) ≠ "serei"),
      dlookup_setIfNonEmpty_self]

lemma applyHorseDetail_serei (h : Dict) (d : HorseDetail) :
    dlookup (applyHorseDetail h d) "serei"
      = if d.serei = "" then dlookup h "serei" else some (.str d.serei) := by
  unfold applyHorseDetail
  by_cases hp : d.pastRaces.isEmpty <;>
    simp [hp, dlookup_dset_ne _ _ _ _ (by decide : ("serei" : String) ≠ "pastRaces"),
      dlookup_setIfNonEmpty_ne _ _ _ _ (by decide : ("serei" : String) ≠ "father"),
      dlookup_setIfNonEmpty_ne _ _ _ _ (by decide : ("serei" : String) ≠ "mother"),
      dlookup_setIfNonEmpty_ne _ _ _ _ (by decide : ("serei" : String) ≠ "trainer"),
      dlookup_setIfNonEmpty_ne _ _ _ _ (by decide : ("serei" : String) ≠ "birthday"),
      dlookup_setIfNonEmpty_ne _ _ _ _ (by decide : ("serei" : String) ≠ "color"),
      dlookup_setIfNonEmpty_self]

lemma applyHorseDetail_pastRaces (h : Dict) (d : HorseDetail) :
    dlookup (applyHorseDetail h d) "pastRaces"
      = if d.pastRaces.isEmpty then dlookup h "pastRaces" else some (.arr d.pastRaces) := by
  unfold applyHorseDetail
  by_cases hp : d.pastRaces.isEmpty <;>
    simp [hp, dlookup_dset_self,
      dlookup_setIfNonEmpty_ne _ _ _ _ (by decide : ("pastRaces" : String) ≠ "father"),
      dlookup_setIfNonEmpty_ne _ _ _ _ (by decide : ("pastRaces" : String) ≠ "mother"),
      dlookup_setIfNonEmpty_ne _ _ _ _ (by decide : ("pastRaces" : String) ≠ "trainer"),
      dlookup_setIfNonEmpty_ne _ _ _ _ (by decide : ("pastRaces" : String) ≠ "birthday"),
      dlookup_setIfNonEmpty_ne _ _ _ _ (by decide : ("pastRaces" : String) ≠ "color"),
      dlookup_setIfNonEmpty_ne _ _ _ _ (by decide : ("pastRaces" : String) ≠ "serei"),
      dlookup_setIfNonEmpty_self]

/-- C2: the horse-detail enrichment never overwrites a stored field with an
empty parsed value — an empty `father` (or any other enrichable scalar, or
an empty `pastRaces` history) leaves the stored entry untouched — and a
non-empty parsed value is the one written. -/
theorem horse_detail_no_blank_overwrite (h : Dict) (d : HorseDetail) :
    (d.father = "" → dlookup (applyHorseDetail h d) "father" = dlookup h "father")
    ∧ (d.mother = "" → dlookup (applyHorseDetail h d) "mother" = dlookup h "mother")
    ∧ (d.trainer = "" → dlookup (applyHorseDetail h d) "trainer" = dlookup h "trainer")
    ∧ (d.birthday = "" → dlookup (applyHorseDetail h d) "birthday" = dlookup h "birthday")
    ∧ (d.color = "" → dlookup (applyHorseDetail h d) "color" = dlookup h "color")
    ∧ (d.serei = "" → dlookup (applyHorseDetail h d) "serei" = dlookup h "serei")
    ∧ (d.pastRaces = [] →
        dlookup (applyHorseDetail h d) "pastRaces" = dlookup h "pastRaces")
    ∧ (d.father ≠ "" → dlookup (applyHorseDetail h d) "father" = some (.str d.father))
    ∧ (d.mother ≠ "" → dlookup (applyHorseDetail h d) "mother" = some (.str d.mother))
    ∧ (d.trainer ≠ "" → dlookup (applyHorseDetail h d) "trainer" = some (.str d.trainer))
    ∧ (d.birthday ≠ "" →
        dlookup (applyHorseDetail h d) "birthday" = some (.str d.birthday))
    ∧ (d.color ≠ "" → dlookup (applyHorseDetail h d) "color" = some (.str d.color))
    ∧ (d.serei ≠ "" → dlookup (applyHorseDetail h d) "serei" = some (.str d.serei))
    ∧ (d.pastRaces ≠ [] →
        dlookup (applyHorseDetail h d) "pastRaces" = some (.arr d.pastRaces)) := by
  refine ⟨?_, ?_, ?_, ?_, ?_, ?_, ?_, ?_, ?_, ?_, ?_, ?_, ?_, ?_⟩ <;> intro hx <;>
    simp [applyHorseDetail_father, applyHorseDetail_mother, applyHorseDetail_trainer,
      applyHorseDetail_birthday, applyHorseDetail_color, applyHorseDetail_serei,
      applyHorseDetail_pastRaces, hx]

/-- A horse with a non-empty sire, and an enrichment result whose sire is
empty (its other fields non-empty). -/
def exHorseSire : Dict := [("name", .str "A"), ("father", .str "Sire X")]

def exDetailEmptyFather : HorseDetail :=
  { father := "", mother := "M", trainer := "T", birthday := "B", color := "C",
    serei := "S", pastRaces := [] }

/-- Witness for C2: enriching a horse whose `father` is `"Sire X"` with a
detail result whose `father` is empty leaves the stored sire unchanged. -/
theorem horse_detail_no_blank_overwrite_witness :
    dlookup (applyHorseDetail exHorseSire exDetailEmptyFather) "father"
      = some (.str "Sire X") := by
  have h := (horse_detail_no_blank_overwrite exHorseSire exDetailEmptyFather).1 rfl
  rw [h]; rfl

/-! ### The maintenance-window guard -/

/-- The constant `BLOCKED_WEEKDAYS` (Python weekday numbers: Monday = 0, so
these are Tuesday, Wednesday, Thursday). -/
def BLOCKED_WEEKDAYS : List Nat := [1, 2, 3]

def BLOCK_START_HOUR : Nat := 16

def BLOCK_END_HOUR : Nat := 17

/-- Embedding of `is_scrape_window_ok`, with the current time abstracted to its weekday
number and hour. -/
def is_scrape_window_ok (weekday hour : Nat) : Bool :=
  if weekday ∈ BLOCKED_WEEKDAYS ∧ BLOCK_START_HOUR ≤ hour ∧ hour < BLOCK_END_HOUR then
    false
  else
    true

/-- The guard at the top of `scrape_race_data`: the call aborts exactly when
`not is_scrape_window_ok() and not allow_partial`. -/
def scrape_guard_blocks (weekday hour : Nat) ( allow_partial : Bool) : Bool :=
  !is_scrape_window_ok weekday hour && ! allow_partial

/-- C4: the scrape is blocked exactly when the weekday is Tuesday, Wednesday
or Thursday (Python weekdays 1–3), the hour lies in `[16, 17)` and
`allow_partial` is unset; in particular Wednesday 16:xx is blocked without
`allow_partial`, proceeds with it, and Wednesday 17:00 and Friday 16:xx are
allowed. -/
theorem scrape_guard_blocks_characterization :
    (∀ weekday hour allow_partial,
        scrape_guard_blocks weekday hour allow_partial = true
          ↔ ((weekday = 1 ∨ weekday = 2 ∨ weekday = 3) ∧ 16 ≤ hour ∧ hour < 17
              ∧ allow_partial = false))
    ∧ scrape_guard_blocks 2 16 false = true
    ∧ scrape_guard_blocks 2 16 true = false
    ∧ scrape_guard_blocks 2 17 false = false
    ∧ scrape_guard_blocks 4 16 false = false := by
  refine ⟨?_, by decide, by decide, by decide, by decide⟩
  intro weekday hour allow_partial
  simp [scrape_guard_blocks, is_scrape_window_ok, BLOCKED_WEEKDAYS, BLOCK_START_HOUR,
    BLOCK_END_HOUR]
  tauto

/-! ### Day-key aliasing

`scrape_race_data` performs (twice, once for the merged all-venues result
and once for the single-page result):

    if target_day and target_day not in data.get("days", {}):
        data.setdefault("days", {})[target_day] = data["days"][next(iter(data["days"]))]

Both occurrences bind the requested key to the very day-block object
already stored under the first present key.  To capture reference
identity we model the `days` dictionary as a map from weekday keys to
*references* (numeric ids) into the heap of day blocks: binding the same
id under two keys is exactly Python's aliasing. -/

/-- The day-aliasing step, over weekday-key → block-reference bindings.
`none` models the `StopIteration` crash of `next(iter({}))` on an empty
`days` dictionary (never reached by the scraper, which always parses at
least one day). -/
def aliasTargetDay (target_day : Option String) (days : List (String × Nat)) :
    Option (List (String × Nat)) :=
  match target_day with
  | none => some days
  | some t =>
    if t ≠ "" ∧ (alookup days t).isNone then
      match days with
      | [] => none
      | (_, b₀) :: _ => some (days ++ [(t, b₀)])
    else
      some days

lemma alookup_append_right {β : Type} (l : List (String × β)) (k : String) (v : β)
    (hk : alookup l k = none) : alookup (l ++ [(k, v)]) k = some v := by
  induction l with
  | nil => simp [alookup]
  | cons kv t ih =>
    by_cases he : kv.1 = k
    · simp [alookup, he] at hk
    · simp [alookup, he] at hk ⊢
      exact ih hk

/-- C6: when the requested day key is absent and at least one day is
present, the aliasing step succeeds (rather than failing) and binds the
requested key to the very same block reference as the first present day
key — the aliased entry is reference-identical to the first day's block. -/
theorem alias_target_day_ref_identical (t k₀ : String) (b₀ : Nat)
    (rest : List (String × Nat)) (ht : t ≠ "")
    (habs : alookup ((k₀, b₀) :: rest) t = none) :
    aliasTargetDay (some t) ((k₀, b₀) :: rest)
        = some (((k₀, b₀) :: rest) ++ [(t, b₀)])
    ∧ alookup (((k₀, b₀) :: rest) ++ [(t, b₀)]) t = some b₀
    ∧ alookup (((k₀, b₀) :: rest) ++ [(t, b₀)]) k₀ = some b₀ := by
  refine ⟨?_, alookup_append_right _ _ _ habs, ?_⟩
  · simp [aliasTargetDay, ht, habs]
  · simp [alookup]

/-- Witness for C6: requesting `"sunday"` from a result that only parsed
`"saturday"` (block reference `0`) aliases `"sunday"` to reference `0`. -/
theorem alias_target_day_ref_identical_witness :
    aliasTargetDay (some "sunday") [("saturday", 0)]
        = some [("saturday", 0), ("sunday", 0)]
    ∧ alookup [("saturday", 0), ("sunday", 0)] "sunday" = some 0
    ∧ alookup [("saturday", 0), ("sunday", 0)] "saturday" = some 0 :=
  alias_target_day_ref_identical "sunday" "saturday" 0 [] (by decide) (by decide)

/-! ### `weekday_key` -/

/-- Embedding of `weekday_key`: derive the weekday key from the date-line text by
checking the seven weekday characters in the source's fixed order. -/
def weekday_key (text : String) : String :=
  if text.toList.contains '土' then "saturday"
  else if text.toList.contains '日' then "sunday"
  else if text.toList.contains '月' then "monday"
  else if text.toList.contains '火' then "tuesday"
  else if text.toList.contains '水' then "wednesday"
  else if text.toList.contains '木' then "thursday"
  else if text.toList.contains '金' then "friday"
  else "unknown"

/-- C8 exactly as claimed: *any* text containing a weekday character maps
to that character's key (stated per character, jointly), plus the default.
This is falsified by the code on texts containing two of the characters. -/
def weekdayKeyClaimLiteral : Prop :=
  (∀ t : String, t.toList.contains '土' = true → weekday_key t = "saturday")
  ∧ (∀ t : String, t.toList.contains '日' = true → weekday_key t = "sunday")
  ∧ (∀ t : String, t.toList.contains '月' = true → weekday_key t = "monday")
  ∧ (∀ t : String, t.toList.contains '火' = true → weekday_key t = "tuesday")
  ∧ (∀ t : String, t.toList.contains '水' = true → weekday_key t = "wednesday")
  ∧ (∀ t : String, t.toList.contains '木' = true → weekday_key t = "thursday")
  ∧ (∀ t : String, t.toList.contains '金' = true → weekday_key t = "friday")
  ∧ (∀ t : String,
      t.toList.contains '土' = false → t.toList.contains '日' = false →
      t.toList.contains '月' = false → t.toList.contains '火' = false →
      t.toList.contains '水' = false → t.toList.contains '木' = false →
      t.toList.contains '金' = false → weekday_key t = "unknown")

/-- C8 counterexample: a real date line such as `2025年10月11日（土曜）`
contains both `日` and `土`, and `weekday_key` answers `"saturday"`, not
`"sunday"` — so the claim's clause for `日` is false as stated. -/
theorem weekday_key_claim_counterexample : ¬ weekdayKeyClaimLiteral := by
  intro hc
  have h := hc.2.1 "2025年10月11日（土曜）" (by decide)
  have : weekday_key "2025年10月11日（土曜）" = "saturday" := by decide
  rw [this] at h
  exact absurd h (by decide)

/-- C8 amended: the seven weekday characters are tested in the fixed
source order 土, 日, 月, 火, 水, 木, 金 and the first one contained in the
text wins; a text containing none of the seven yields `"unknown"`. -/
theorem weekday_key_first_match (t : String) :
    (t.toList.contains '土' = true → weekday_key t = "saturday")
    ∧ (t.toList.contains '土' = false → t.toList.contains '日' = true →
        weekday_key t = "sunday")
    ∧ (t.toList.contains '土' = false → t.toList.contains '日' = false →
        t.toList.contains '月' = true → weekday_key t = "monday")
    ∧ (t.toList.contains '土' = false → t.toList.contains '日' = false →
        t.toList.contains '月' = false → t.toList.contains '火' = true →
        weekday_key t = "tuesday")
    ∧ (t.toList.contains '土' = false → t.toList.contains '日' = false →
        t.toList.contains '月' = false → t.toList.contains '火' = false →
        t.toList.contains '水' = true → weekday_key t = "wednesday")
    ∧ (t.toList.contains '土' = false → t.toList.contains '日' = false →
        t.toList.contains '月' = false → t.toList.contains '火' = false →
        t.toList.contains '水' = false → t.toList.contains '木' = true →
        weekday_key t = "thursday")
    ∧ (t.toList.contains '土' = false → t.toList.contains '日' = false →
        t.toList.contains '月' = false → t.toList.contains '火' = false →
        t.toList.contains '水' = false → t.toList.contains '木' = false →
        t.toList.contains '金' = true → weekday_key t = "friday")
    ∧ (t.toList.contains '土' = false → t.toList.contains '日' = false →
        t.toList.contains '月' = false → t.toList.contains '火' = false →
        t.toList.contains '水' = false → t.toList.contains '木' = false →
        t.toList.contains '金' = false → weekday_key t = "unknown") := by
  refine ⟨?_, ?_, ?_, ?_, ?_, ?_, ?_, ?_⟩ <;> intros <;> simp_all [weekday_key]

/-- Witness for C8 (amended): on a realistic date line containing both 土
and 日 the first listed character, 土, wins. -/
theorem weekday_key_first_match_witness :
    weekday_key "2025年10月11日（土曜）" = "saturday" :=
  (weekday_key_first_match "2025年10月11日（土曜）").1 (by decide)

/-! ### String utilities used by the parsers

The Python module leans on a handful of regular expressions over short
strings.  Each of them backtracks trivially (character classes exclude the
closing delimiter, or a shorter match is followed by a character the next
pattern element rejects), so each is embedded as a direct scanner with the
same leftmost-match semantics. -/

/-- An ASCII apostrophe (used by the `doAction` pattern). -/
def quoteChar : Char := Char.ofNat 39

/-- Python's `\d` character class, restricted to the digit forms that
occur on the site: ASCII `0`–`9` and the full-width `０`–`９`. -/
def pyIsDigit (c : Char) : Bool :=
  c.isDigit || (0xFF10 ≤ c.toNat && c.toNat ≤ 0xFF19)

/-- Python's `\s` / `str.strip()` whitespace, restricted to ASCII
whitespace and the ideographic space `　` that occur on the site. -/
def pyIsSpace (c : Char) : Bool :=
  c.isWhitespace || c.toNat = 0x3000

/-- Python `str.strip()`. -/
def pyStrip (s : String) : String :=
  String.mk (((s.toList.dropWhile pyIsSpace).reverse.dropWhile pyIsSpace).reverse)

/-- The numeric value of a (possibly full-width) decimal digit. -/
def pyDigitVal (c : Char) : Nat :=
  if c.isDigit then c.toNat - ('0').toNat else c.toNat - 0xFF10

/-- Python `pat in s` for a multi-character needle (substring test). -/
def containsSeq (s pat : List Char) : Bool :=
  match s with
  | [] => pat.isEmpty
  | _ :: t => pat.isPrefixOf s || containsSeq t pat

/-- Python `a or b` on strings. -/
def pyOr (a b : String) : String := if a = "" then a ++ b else a

lemma pyOr_def (a b : String) : pyOr a b = if a = "" then b else a := by
  by_cases h : a = "" <;> simp [pyOr, h]

/-- Digit run to a number (`int(...)` on the matched digits). -/
def digitsToNat (ds : List Char) : Nat :=
  ds.foldl (fun n c => n * 10 + pyDigitVal c) 0

/-- One position of the search for `syutsuba_(\d+)R`: the literal prefix,
then at least one digit (the maximal run — a shorter run is followed by a
digit, which `R` rejects), then `R`. -/
def syutsubaAt (cs : List Char) : Option Nat :=
  if ("syutsuba_".toList).isPrefixOf cs then
    let rest := cs.drop 9
    let p := rest.span pyIsDigit
    if !p.1.isEmpty ∧ p.2.head? = some ('R') then some (digitsToNat p.1) else none
  else none

/-- Leftmost search for the `syutsuba_(\d+)R` pattern. -/
def findSyutsubaNum : List Char → Option Nat
  | [] => none
  | c :: cs =>
    match syutsubaAt (c :: cs) with
    | some n => some n
    | none => findSyutsubaNum cs

/-- Leftmost match of `([\d,]+)`: the first character in the class starts
the match, which then extends greedily. -/
def distScan : List Char → Option (List Char)
  | [] => none
  | c :: cs =>
    if pyIsDigit c ∨ c = ',' then some (c :: cs.takeWhile (fun x => pyIsDigit x ∨ x = ','))
    else distScan cs

/-- Embedding of `parse_course`: numeric distance with separators stripped, and the
surface inferred from 芝 / ダート keywords, falling back to the raw text. -/
def parse_course (text : String) : String × String :=
  let cs := text.toList
  let distance :=
    match distScan cs with
    | some run => String.mk (run.filter (· ≠ ','))
    | none => ""
  let surface :=
    if cs.contains '芝' then "芝"
    else if containsSeq cs ("ダート".toList) || containsSeq cs ("ﾀﾞｰﾄ".toList) then "ダート"
    else ""
  (distance, pyOr surface text)

/-- The lazy group of `re.search(r"回(.+?)(\d+)日", text)` after a `回`:
try the shortest non-empty prefix whose remainder starts with a digit run
followed by `日`. -/
def venueSplit : List Char → List Char → Option (List Char)
  | _, [] => none
  | acc, c :: rest =>
    let acc' := acc ++ [c]
    let p := rest.span pyIsDigit
    if !p.1.isEmpty ∧ p.2.head? = some ('日') then some acc' else venueSplit acc' rest

/-- Leftmost `回` whose continuation matches `(.+?)(\d+)日`. -/
def kaiScan : List Char → Option (List Char)
  | [] => none
  | c :: cs =>
    if c = '回' then
      match venueSplit [] cs with
      | some g => some g
      | none => kaiScan cs
    else kaiScan cs

/-- Embedding of `extract_venue_from_date`: group 1 of `回(.+?)(\d+)日`, else `""`. -/
def extract_venue_from_date (text : String) : String :=
  match kaiScan text.toList with
  | some g => String.mk g
  | none => ""

/-- The element `\d{1,2}` followed by a required separator character: two digits are
preferred, backtracking to one. -/
def mdScan (cs : List Char) (sep : Char) : Option (List Char × List Char) :=
  match cs with
  | c1 :: c2 :: c3 :: rest =>
    if pyIsDigit c1 ∧ pyIsDigit c2 ∧ c3 = sep then some ([c1, c2], rest)
    else if pyIsDigit c1 ∧ c2 = sep then some ([c1], c3 :: rest)
    else none
  | [c1, c2] => if pyIsDigit c1 ∧ c2 = sep then some ([c1], []) else none
  | _ => none

/-- Anchored match of the base-date pattern of `extract_base_date`, starting at
the start after leading whitespace. -/
def baseDateScan (cs : List Char) : Option (List Char) :=
  match cs.dropWhile pyIsSpace with
  | a :: b :: c :: d :: e :: r1 =>
    if pyIsDigit a ∧ pyIsDigit b ∧ pyIsDigit c ∧ pyIsDigit d ∧ e = '年' then
      match mdScan r1 '月' with
      | none => none
      | some (m1, r2) =>
        match mdScan r2 '日' with
        | none => none
        | some (m2, r3) =>
          match r3 with
          | '（' :: r4 =>
            let p := r4.span (· ≠ '）')
            if !p.1.isEmpty ∧ p.2.head? = some ('）') then
              some ([a, b, c, d, '年'] ++ m1 ++ ['月'] ++ m2 ++ ['日', '（'] ++ p.1 ++ ['）'])
            else none
          | _ => none
    else none
  | _ => none

/-- Embedding of `extract_base_date`: the matched date label, or the raw text. -/
def extract_base_date (text : String) : String :=
  match baseDateScan text.toList with
  | some g => String.mk g
  | none => text

/-- Search for the frame pattern `枠(\d+)(\D*)`: a `枠` followed by at least one
digit; group 1 is the maximal digit run, group 2 the following non-digit
run. -/
def wakuScan : List Char → Option (List Char × List Char)
  | [] => none
  | c :: cs =>
    if c = '枠' then
      let p := cs.span pyIsDigit
      if p.1.isEmpty then wakuScan cs
      else some (p.1, p.2.takeWhile (fun x => !pyIsDigit x))
    else wakuScan cs

/-- Embedding of `clean_kg`: drop the `kg` / `ＫＧ` unit markers and strip. -/
def clean_kg (text : String) : String :=
  pyStrip ((text.replace "kg" "").replace "ＫＧ" "")

/-- Embedding of `clean_bataiju`: strip. -/
def clean_bataiju (text : String) : String := pyStrip text

/-- The `BASE_URL` of the scraped site. -/
def BASE_URL : String := "https://www.jra.go.jp"

/-- Python `s.rstrip("/")`. -/
def rstripSlash (s : String) : String :=
  String.mk (s.toList.reverse.dropWhile (· = '/')).reverse

/-- Embedding of `make_absolute_url`: empty stays empty, absolute passes through,
root-relative is prefixed with the base origin, anything else unchanged. -/
def make_absolute_url (href : String) : String :=
  if href = "" then ""
  else if ("http://".toList).isPrefixOf href.toList
      ∨ ("https://".toList).isPrefixOf href.toList then href
  else if href.toList.head? = some ('/') then rstripSlash BASE_URL ++ href
  else href

/-- The literal `doAction('` prefix of the onclick pattern. -/
def doActionPat : List Char := "doAction(".toList ++ [quoteChar]

/-- One position of `re.search(r"doAction\('([^']+)'\s*,\s*'([^']+)'", s)`:
both groups are runs of non-quote characters, so the greedy match is the
run up to the next quote. -/
def doActionAt (cs : List Char) : Option (List Char × List Char) :=
  if doActionPat.isPrefixOf cs then
    let r0 := cs.drop 10
    let p1 := r0.span (· ≠ quoteChar)
    if !p1.1.isEmpty ∧ p1.2.head? = some quoteChar then
      match (p1.2.drop 1).dropWhile pyIsSpace with
      | ',' :: r2 =>
        match r2.dropWhile pyIsSpace with
        | q :: r4 =>
          if q = quoteChar then
            let p2 := r4.span (· ≠ quoteChar)
            if !p2.1.isEmpty ∧ p2.2.head? = some quoteChar then some (p1.1, p2.1)
            else none
          else none
        | [] => none
      | _ => none
    else none
  else none

/-- Leftmost search for the `doAction` pattern. -/
def doActionScan : List Char → Option (List Char × List Char)
  | [] => none
  | c :: cs =>
    match doActionAt (c :: cs) with
    | some r => some r
    | none => doActionScan cs

/-- Embedding of `parse_onclick_url`: build an absolute URL with a `cname` query
parameter from the matched `doAction` call, else `""`. -/
def parse_onclick_url (onclick : String) : String :=
  if onclick = "" then ""
  else
    match doActionScan onclick.toList with
    | none => ""
    | some (path, code) =>
      let base := rstripSlash BASE_URL
      let path_part :=
        if path.head? = some ('/') then String.mk path else "/" ++ String.mk path
      base ++ path_part ++ "?cname=" ++ String.mk code

/-- Two-digit zero padding (`f"{n:02d}"` for a non-negative number). -/
def pad2 (n : Nat) : String := if n < 10 then "0" ++ toString n else toString n

/-! ### The racecard parser `parse_syutsuba_html`

A race `<li>` of `ul.syutsuba_unit_list` is modelled by the text/attribute
values the parser selects from it.  `safe_text` turns a missing element
into `""`, so simple text cells are plain strings; the `.race_header`
element, however, is dereferenced directly (`header.select_one(...)`), so
a missing header is an `AttributeError` crash, modelled as `Option`. -/

/-- The `.race_header` element of a race item. -/
structure RaceHeader where
  date : String
  time : String
  dateLine : String

/-- One `tbody tr` row of a race item: the texts and anchor attributes the
parser selects (missing elements read as `""` through `safe_text` /
`(x or {}).get`). -/
structure HorseRow where
  horseName : String
  numText : String
  ageText : String
  wakuText : String
  wakuImgAlt : String
  weightText : String
  jockeyText : String
  trainerText : String
  oddsText : String
  hWeightText : String
  horseHref : String
  horseOnclick : String
  jockeyHref : String
  jockeyOnclick : String

/-- One `li[id^=syutsuba_]` race item. -/
structure RaceLi where
  idAttr : String
  header : Option RaceHeader
  raceName : String
  courseText : String
  rows : List HorseRow

/-- The `Horse` dataclass of the scraper. -/
structure HorseRec where
  num : String
  waku : String
  waku_color : String
  name : String
  serei : String
  weight : String
  jockey : String
  jockey_url : String
  trainer : String
  odds : String
  bataiju : String
  detail_url : String
  father : String
  mother : String
  birthday : String
  color : String
  pastRaces : List JVal

/-- The `Race` dataclass of the scraper. -/
structure RaceRec where
  race_id : String
  race_number : Nat
  start_time : String
  title : String
  course_distance : String
  surface : String
  horses : List HorseRec

/-- The per-row body of the horse loop in `parse_race_li`; rows with an
empty horse-name cell are skipped (`none`). -/
def rowHorse (row : HorseRow) : Option HorseRec :=
  if row.horseName = "" then none
  else
    let wakuPair :=
      if row.wakuText = "" then
        match wakuScan row.wakuImgAlt.toList with
        | some (ds, nds) => (String.mk ds, pyStrip (String.mk nds))
        | none => ("", "")
      else
        match wakuScan row.wakuImgAlt.toList with
        | some (_, nds) => (row.wakuText, pyStrip (String.mk nds))
        | none => (row.wakuText, "")
    let horseHref := if row.horseHref = "#" then "" else row.horseHref
    let detailUrl := pyOr (make_absolute_url horseHref) (parse_onclick_url row.horseOnclick)
    let jHref := if row.jockeyHref = "#" then "" else row.jockeyHref
    let jockeyUrl := pyOr (make_absolute_url jHref) (parse_onclick_url row.jockeyOnclick)
    some
      { num := row.numText
        waku := wakuPair.1
        waku_color := wakuPair.2
        name := row.horseName
        serei := row.ageText
        weight := clean_kg row.weightText
        jockey := row.jockeyText
        jockey_url := jockeyUrl
        trainer := row.trainerText
        odds := row.oddsText
        bataiju := clean_bataiju row.hWeightText
        detail_url := detailUrl
        father := ""
        mother := ""
        birthday := ""
        color := ""
        pastRaces := [] }

/-- Embedding of `parse_race_li`; `none` is the `AttributeError` crash on a race item
without a `.race_header` element. -/
def parse_race_li (li : RaceLi) : Option RaceRec :=
  match li.header with
  | none => none
  | some hdr =>
    let race_number := (findSyutsubaNum li.idAttr.toList).getD 0
    let cd := parse_course li.courseText
    let venue := pyOr (extract_venue_from_date hdr.date) "unknown"
    let race_id := if race_number ≠ 0 then venue ++ "-" ++ pad2 race_number else venue
    some
      { race_id := race_id
        race_number := race_number
        start_time := hdr.time
        title := li.raceName
        course_distance := cd.1
        surface := cd.2
        horses := li.rows.filterMap rowHorse }

/-- Embedding of `Horse.to_dict`. -/
def horseToDict (h : HorseRec) : Dict :=
  [("num", .str h.num), ("waku", .str h.waku), ("waku_color", .str h.waku_color),
   ("name", .str h.name), ("serei", .str h.serei), ("weight", .str h.weight),
   ("jockey", .str h.jockey), ("jockey_url", .str h.jockey_url),
   ("trainer", .str h.trainer), ("odds", .str h.odds), ("bataiju", .str h.bataiju),
   ("detail_url", .str h.detail_url), ("father", .str h.father),
   ("mother", .str h.mother), ("birthday", .str h.birthday), ("color", .str h.color),
   ("pastRaces", .arr h.pastRaces)]

/-- Embedding of `Race.to_dict`, as it appears inside the per-day venue block. -/
def raceToDictDay (r : RaceRec) : RaceJ :=
  { horses := r.horses.map horseToDict
    extra := [("race_id", .str r.race_id), ("race_number", .nat r.race_number),
              ("start_time", .str r.start_time), ("title", .str r.title),
              ("course_distance", .str r.course_distance), ("surface", .str r.surface)] }

/-- The flat-venue race dictionary built inline in `parse_syutsuba_html`. -/
def raceToDictFlat (r : RaceRec) : RaceJ :=
  { horses := r.horses.map horseToDict
    extra := [("id", .str r.race_id), ("raceNum", .nat r.race_number),
              ("time", .str r.start_time), ("title", .str r.title),
              ("status", .str "upcoming"), ("course_distance", .str r.course_distance),
              ("surface", .str r.surface)] }

/-- Outcome of `parse_syutsuba_html`: the raised `AbortScrapeError`, a
crash (`AttributeError` on a header-less race item), or the parsed
aggregate. -/
inductive PResult where
  | abort (msg : String)
  | crash
  | ok (d : RData)

/-- The list comprehension `[parse_race_li(li) for li in race_items]`:
the first crash propagates. -/
def parseAll : List RaceLi → Option (List RaceRec)
  | [] => some []
  | it :: rest =>
    match parse_race_li it with
    | none => none
    | some r =>
      match parseAll rest with
      | none => none
      | some rs => some (r :: rs)

/-- Embedding of `parse_syutsuba_html` over the selected race items. -/
def parse_syutsuba_html (items : List RaceLi) : PResult :=
  match items with
  | [] => .abort "syutsuba_unit_list not found; page structure may have changed."
  | it0 :: _ =>
    match parseAll items with
    | none => .crash
    | some races =>
      match it0.header with
      | none => .crash
      | some hdr =>
        let date_text := hdr.date
        let base_date := extract_base_date date_text
        let venue := extract_venue_from_date date_text
        let day_key := weekday_key date_text
        let venue_label := pyOr hdr.dateLine date_text
        let venue_block : VenueJ :=
          { races := races.map raceToDictDay
            extra := [("venue", .str venue), ("venue_label", .str venue_label)] }
        let flat_block : VenueJ :=
          { races := races.map raceToDictFlat
            extra := [("name", .str venue), ("session", .str (pyOr venue_label venue))] }
        .ok
          { date := base_date
            days := [(day_key, { venues := [venue_block], extra := [("date", .str date_text)] })]
            venues := [flat_block] }

/-- C10: whenever `parse_syutsuba_html` succeeds, the aggregate has exactly
one day key and exactly one flat venue block — the invariant the all-venues
merge and the day-aliasing step rely on. -/
theorem parse_syutsuba_html_single_day_single_venue (items : List RaceLi) (d : RData)
    (h : parse_syutsuba_html items = .ok d) :
    d.days.length = 1 ∧ d.venues.length = 1 := by
  match items, h with
  | it0 :: rest, h =>
    rcases hm : parseAll (it0 :: rest) with _ | races <;>
      rcases hh : it0.header with _ | hdr <;>
      simp [parse_syutsuba_html, hm, hh] at h
    rw [← h]
    exact ⟨rfl, rfl⟩

/-- A complete concrete race item (all selected elements present). -/
def exHeader : RaceHeader :=
  { date := "2025年10月11日（土曜） 4回東京4日"
    time := "15:45"
    dateLine := "2025年10月11日（土曜） 4回東京4日" }

def exRow : HorseRow :=
  { horseName := "テストホース"
    numText := "1"
    ageText := "牡3"
    wakuText := "1"
    wakuImgAlt := "枠1白"
    weightText := "57kg"
    jockeyText := "テスト騎手"
    trainerText := "調教師A"
    oddsText := "2.4"
    hWeightText := "480"
    horseHref := "/JRADB/accessU.html"
    horseOnclick := ""
    jockeyHref := ""
    jockeyOnclick := "" }

def exItem : RaceLi :=
  { idAttr := "syutsuba_11R"
    header := some exHeader
    raceName := "テスト記念"
    courseText := "芝・左 2,400m"
    rows := [exRow] }

/-- The aggregate parsed from the concrete item. -/
def exParsed : RData :=
  match parse_syutsuba_html [exItem] with
  | .ok d => d
  | _ => { date := "", days := [], venues := [] }

/-- Witness for C10: the concrete parse succeeds with one day key and one
flat venue block. -/
theorem parse_syutsuba_html_single_day_single_venue_witness :
    exParsed.days.length = 1 ∧ exParsed.venues.length = 1 :=
  parse_syutsuba_html_single_day_single_venue [exItem] exParsed rfl

lemma parseAll_isSome (items : List RaceLi)
    (hall : ∀ it ∈ items, it.header.isSome) :
    ∃ races, parseAll items = some races := by
  induction items with
  | nil => exact ⟨[], rfl⟩
  | cons it rest ih =>
    rcases hh : it.header with _ | hdr
    · have := hall it (by simp)
      rw [hh] at this
      cases this
    · rcases ih (fun x hx => hall x (by simp [hx])) with ⟨races, hr⟩
      refine ⟨(parse_race_li it).get (by simp [parse_race_li, hh]) :: races, ?_⟩
      simp [parseAll, hr, parse_race_li, hh]

/-- C5 as amended: `parse_syutsuba_html` raises the `StructureNotFound`
abort condition if and only if the race-item list is empty; and on markup
with at least one race item *in which every race item carries its
`.race_header` element* it returns a parsed aggregate (the original claim's
"for every markup with at least one race container" fails: a header-less
item crashes with `AttributeError` instead — see the counterexample). -/
theorem parse_syutsuba_html_abort_iff_empty (items : List RaceLi) :
    ((∃ msg, parse_syutsuba_html items = .abort msg) ↔ items = [])
    ∧ (items ≠ [] → (∀ it ∈ items, it.header.isSome) →
        ∃ d, parse_syutsuba_html items = .ok d) := by
  constructor
  · constructor
    · rintro ⟨msg, hmsg⟩
      match items, hmsg with
      | [], _ => rfl
      | it0 :: rest, hmsg =>
        rcases hm : parseAll (it0 :: rest) with _ | races <;>
          rcases hh : it0.header with _ | hdr <;>
          simp [parse_syutsuba_html, hm, hh] at hmsg
    · rintro rfl
      exact ⟨_, rfl⟩
  · intro hne hall
    match items, hne with
    | it0 :: rest, _ =>
      rcases parseAll_isSome (it0 :: rest) hall with ⟨races, hr⟩
      rcases hh : it0.header with _ | hdr
      · have := hall it0 (by simp)
        rw [hh] at this
        cases this
      · cases hp : parse_syutsuba_html (it0 :: rest) with
        | abort msg => exact absurd hp (by simp [parse_syutsuba_html, hr, hh])
        | crash => exact absurd hp (by simp [parse_syutsuba_html, hr, hh])
        | ok d => exact ⟨d, rfl⟩

/-- Witness for C5 (amended): the concrete one-item markup parses to an
aggregate. -/
theorem parse_syutsuba_html_abort_iff_empty_witness :
    ∃ d, parse_syutsuba_html [exItem] = .ok d :=
  (parse_syutsuba_html_abort_iff_empty [exItem]).2 (by simp)
    (by intro it hit; simp [exItem] at hit; simp [hit, exItem])

/-- A race item present in the list but lacking its `.race_header`. -/
def headerlessItem : RaceLi :=
  { idAttr := "syutsuba_01R", header := none, raceName := "", courseText := "",
    rows := [] }

/-- C5 counterexample: markup whose race-item list is non-empty but whose
item has no `.race_header` makes `parse_syutsuba_html` crash
(`AttributeError` on `header.select_one`), so it neither aborts with the
structure condition nor returns an aggregate — refuting "for every markup
in which at least one race container is present it returns a parsed
aggregate". -/
theorem parse_syutsuba_html_headerless_crash :
    parse_syutsuba_html [headerlessItem] = .crash := rfl

/-! ### The all-venues merge loop of `scrape_race_data`

    merged = None
    for venue_label, html in venues_html:
        data = parse_syutsuba_html(html)
        if data.get("venues"):
            data["venues"][0]["session"] = venue_label
            data["venues"][0]["name"] = data["venues"][0].get("venue") or venue_label
        if merged is None:
            merged = data
        else:
            day_key = next(iter(data["days"]))
            if day_key not in merged["days"]:
                merged["days"][day_key] = data["days"][day_key]
            else:
                merged["days"][day_key]["venues"].extend(data["days"][day_key]["venues"])
            merged["venues"].extend(data["venues"])
-/

/-- The per-iteration label fix-up on `data["venues"][0]`. -/
def fixVenueLabel (label : String) (d : RData) : RData :=
  match d.venues with
  | [] => d
  | v :: rest =>
    let e1 := dset v.extra "session" (.str label)
    let nameVal : JVal :=
      match dlookup e1 "venue" with
      | some x => if jtruthy x then x else .str label
      | none => .str label
    { d with venues := { v with extra := dset e1 "name" nameVal } :: rest }

/-- Merging one parsed result into the accumulated aggregate; `none` models
the `StopIteration` crash of `next(iter(data["days"]))` on a result without
day keys (never produced by the parser). -/
def mergeInto (m d : RData) : Option RData :=
  match d.days with
  | [] => none
  | (dk, db) :: _ =>
    let days' :=
      if (alookup m.days dk).isSome then
        m.days.map (fun kv =>
          if kv.1 = dk then (kv.1, { kv.2 with venues := kv.2.venues ++ db.venues }) else kv)
      else
        m.days ++ [(dk, db)]
    some { m with days := days', venues := m.venues ++ d.venues }

/-- One iteration of the merge loop on a `(venue_label, parsed)` pair. -/
def mergeStep (acc : Option RData) (p : String × RData) : Option (Option RData) :=
  let d := fixVenueLabel p.1 p.2
  match acc with
  | none => some (some d)
  | some m =>
    match mergeInto m d with
    | none => none
    | some m2 => some (some m2)

/-- The whole merge loop over the `(venue_label, parsed)` sequence. -/
def mergeFold : Option RData → List (String × RData) → Option (Option RData)
  | acc, [] => some acc
  | acc, p :: ps =>
    match mergeStep acc p with
    | none => none
    | some acc2 => mergeFold acc2 ps

/-- The flat `venues` view of the accumulator (`merged is None` → no
venues yet). -/
def venuesView : Option RData → List VenueJ
  | none => []
  | some m => m.venues

lemma fixVenueLabel_days (label : String) (d : RData) :
    (fixVenueLabel label d).days = d.days := by
  unfold fixVenueLabel
  rcases d.venues with _ | ⟨v, rest⟩ <;> rfl

lemma mergeFold_append (l₁ : List (String × RData)) (acc : Option RData)
    (l₂ : List (String × RData)) :
    mergeFold acc (l₁ ++ l₂) = (mergeFold acc l₁).bind (fun a => mergeFold a l₂) := by
  induction l₁ generalizing acc with
  | nil => rfl
  | cons p ps ih =>
    show mergeFold acc (p :: (ps ++ l₂)) = _
    rcases hs : mergeStep acc p with _ | acc2
    · simp [mergeFold, hs]
    · simp [mergeFold, hs, ih]

lemma mergeInto_venues (m d : RData) (hd : d.days ≠ []) :
    ∃ m1, mergeInto m d = some m1 ∧ m1.venues = m.venues ++ d.venues := by
  rcases hdk : d.days with _ | ⟨⟨dk, db⟩, dtl⟩
  · exact absurd hdk hd
  · refine ⟨{ m with
        days :=
          if (alookup m.days dk).isSome then
            m.days.map (fun kv =>
              if kv.1 = dk then (kv.1, { kv.2 with venues := kv.2.venues ++ db.venues })
              else kv)
          else m.days ++ [(dk, db)],
        venues := m.venues ++ d.venues }, ?_, rfl⟩
    unfold mergeInto
    rw [hdk]

lemma mergeFold_some_venues (pairs : List (String × RData)) (m : RData)
    (hdays : ∀ p ∈ pairs, p.2.days ≠ []) :
    ∃ m2, mergeFold (some m) pairs = some (some m2)
      ∧ m2.venues
          = m.venues ++ (pairs.map (fun p => (fixVenueLabel p.1 p.2).venues)).flatten := by
  induction pairs generalizing m with
  | nil => exact ⟨m, rfl, by simp⟩
  | cons p ps ih =>
    have hd : (fixVenueLabel p.1 p.2).days ≠ [] := by
      rw [fixVenueLabel_days]
      exact hdays p (by simp)
    rcases mergeInto_venues m (fixVenueLabel p.1 p.2) hd with ⟨m1, hmi, hm1v⟩
    rcases ih m1 (fun q hq => hdays q (by simp [hq])) with ⟨m2, hfold, hven⟩
    refine ⟨m2, ?_, ?_⟩
    · show (match mergeStep (some m) p with
          | none => none
          | some acc2 => mergeFold acc2 ps) = some (some m2)
      simp [mergeStep, hmi, hfold]
    · rw [hven, hm1v]
      simp

/-- C7: the all-venues merge is a left fold, so it is invariant under any
split of the venue sequence, and (when each parsed result has at least one
day key, as the parser guarantees) the flat `venues` view of the merged
aggregate is exactly the concatenation of the per-venue (label-fixed)
venue blocks. -/
theorem merge_venues_split_invariant (acc : Option RData)
    (l₁ l₂ pairs : List (String × RData))
    (hdays : ∀ p ∈ pairs, p.2.days ≠ []) :
    mergeFold acc (l₁ ++ l₂) = (mergeFold acc l₁).bind (fun a => mergeFold a l₂)
    ∧ ∃ acc2, mergeFold none pairs = some acc2
        ∧ venuesView acc2
            = (pairs.map (fun p => (fixVenueLabel p.1 p.2).venues)).flatten := by
  refine ⟨mergeFold_append l₁ acc l₂, ?_⟩
  match pairs, hdays with
  | [], _ => exact ⟨none, rfl, rfl⟩
  | p :: ps, hdays =>
    rcases mergeFold_some_venues ps (fixVenueLabel p.1 p.2)
        (fun q hq => hdays q (by simp [hq])) with ⟨m2, hfold, hven⟩
    refine ⟨some m2, ?_, ?_⟩
    · show (match mergeStep none p with
          | none => none
          | some acc2 => mergeFold acc2 ps) = some (some m2)
      simp [mergeStep, hfold]
    · rw [venuesView, hven]
      simp

/-- Two tiny parsed results for the merge witness. -/
def exDayBlock (v : String) : DayJ :=
  { venues := [{ races := [], extra := [("venue", .str v)] }], extra := [] }

def exRD1 : RData :=
  { date := "d1", days := [("saturday", exDayBlock "東京")],
    venues := [{ races := [], extra := [("name", .str "東京"), ("session", .str "s1")] }] }

def exRD2 : RData :=
  { date := "d2", days := [("saturday", exDayBlock "京都")],
    venues := [{ races := [], extra := [("name", .str "京都"), ("session", .str "s2")] }] }

/-- Witness for C7 at two concrete parsed results and a concrete split. -/
theorem merge_venues_split_invariant_witness :
    mergeFold none ([("4回東京4日", exRD1)] ++ [("3回京都4日", exRD2)])
        = (mergeFold none [("4回東京4日", exRD1)]).bind
            (fun a => mergeFold a [("3回京都4日", exRD2)])
    ∧ ∃ acc2,
        mergeFold none [("4回東京4日", exRD1), ("3回京都4日", exRD2)] = some acc2
        ∧ venuesView acc2
            = ([("4回東京4日", exRD1), ("3回京都4日", exRD2)].map
                (fun p => (fixVenueLabel p.1 p.2).venues)).flatten :=
  merge_venues_split_invariant none [("4回東京4日", exRD1)] [("3回京都4日", exRD2)]
    [("4回東京4日", exRD1), ("3回京都4日", exRD2)]
    (by
      intro p hp
      rcases List.mem_cons.1 hp with rfl | hp
      · simp [exRD1]
      · rcases List.mem_cons.1 hp with rfl | hp
        · simp [exRD2]
        · cases hp)

/-! ### Jockey enrichment of `scrape_race_data` (`fetch_jockey_detail`)

The first loop walks every horse of the flat `venues` view, clears six
jockey-shaped fields unconditionally, and — de-duplicating through the
`jockey_seen` dictionary, which only records *successful* fetches — fetches
the detail page of the horse's jockey when the horse carries a non-empty
jockey name and URL and the name is not in `jockey_seen` yet.  The second
loop copies the recorded detail onto every horse whose jockey name was
fetched.  The network fetch plus parse is abstracted by a deterministic
oracle from the jockey URL to an optional parsed detail (`none` models the
swallowed exception of a failed fetch); the fetch log records the jockey
name of every attempt. -/

/-- The result of `parse_jockey_detail` (the stats fields may be tables or
fallback strings, hence `JVal`). -/
structure JockeyDetail where
  birthday : String
  height : String
  weight : String
  first_license : String
  stats_current : JVal
  stats_total : JVal

/-- The six keys cleared and re-filled by the jockey enrichment. -/
def JOCKEY_KEYS : List String :=
  ["birthday", "height", "weight", "first_license", "stats_current", "stats_total"]

/-- The unconditional per-horse clearing (race.py lines 701–706). -/
def clearJockeyFields (h : Dict) : Dict :=
  dset (dset (dset (dset (dset (dset h "birthday" (.str ""))
    "height" (.str "")) "weight" (.str "")) "first_license" (.str ""))
    "stats_current" (.obj [])) "stats_total" (.obj [])

/-- Python `h.update(det)` with the key order of the `parse_jockey_detail` result. -/
def jockeyUpdate (h : Dict) (det : JockeyDetail) : Dict :=
  dset (dset (dset (dset (dset (dset h "birthday" (.str det.birthday))
    "height" (.str det.height)) "weight" (.str det.weight))
    "first_license" (.str det.first_license))
    "stats_current" det.stats_current) "stats_total" det.stats_total

/-- In-call state of the first loop: the `jockey_seen` cache (successful
fetches only) and the log of fetch attempts by jockey name. -/
structure JState where
  seen : List (String × JockeyDetail)
  log : List String

/-- The body of the first loop for one horse. -/
def jstep (oracle : String → Option JockeyDetail) (st : JState) (h : Dict) :
    Dict × JState :=
  let h2 := clearJockeyFields h
  let name := getStr h2 "jockey"
  let url := getStr h2 "jockey_url"
  if name = "" ∨ url = "" ∨ (alookup st.seen name).isSome then (h2, st)
  else
    match oracle url with
    | some det => (h2, ⟨st.seen ++ [(name, det)], st.log ++ [name]⟩)
    | none => (h2, ⟨st.seen, st.log ++ [name]⟩)

/-- Sequential traversal threading the loop state. -/
def mapAccum {σ α : Type} (f : σ → α → α × σ) : σ → List α → List α × σ
  | st, [] => ([], st)
  | st, a :: as =>
    let r := f st a
    let rs := mapAccum f r.2 as
    (r.1 :: rs.1, rs.2)

/-- First loop over one race's horses. -/
def jraceStep (oracle : String → Option JockeyDetail) (st : JState) (r : RaceJ) :
    RaceJ × JState :=
  let p := mapAccum (jstep oracle) st r.horses
  ({ r with horses := p.1 }, p.2)

/-- First loop over one venue's races. -/
def jvenueStep (oracle : String → Option JockeyDetail) (st : JState) (v : VenueJ) :
    VenueJ × JState :=
  let p := mapAccum (jraceStep oracle) st v.races
  ({ v with races := p.1 }, p.2)

/-- The whole first loop over the flat `venues` view. -/
def jpass1 (oracle : String → Option JockeyDetail) (d : RData) : RData × JState :=
  let p := mapAccum (jvenueStep oracle) ⟨[], []⟩ d.venues
  ({ d with venues := p.1 }, p.2)

/-- The body of the second loop: copy the recorded detail onto the horse. -/
def jattach (seen : List (String × JockeyDetail)) (h : Dict) : Dict :=
  match alookup seen (getStr h "jockey") with
  | some det => jockeyUpdate h det
  | none => h

/-- The second loop over the flat `venues` view. -/
def jpass2 (seen : List (String × JockeyDetail)) (d : RData) : RData :=
  { d with venues := d.venues.map (fun v =>
      { v with races := v.races.map (fun r =>
          { r with horses := r.horses.map (jattach seen) }) }) }

/-- The whole `fetch_jockey_detail` phase. -/
def fetchJockeyPhase (oracle : String → Option JockeyDetail) (d : RData) :
    RData × JState :=
  let p := jpass1 oracle d
  (jpass2 p.2.seen p.1, p.2)

lemma dlookup_clearJockeyFields_birthday (h : Dict) :
    dlookup (clearJockeyFields h) "birthday" = some (.str "") := by
  unfold clearJockeyFields
  rw [dlookup_dset_ne _ _ _ _ (by decide : ("birthday" : String) ≠ "stats_total"), dlookup_dset_ne _ _ _ _ (by decide : ("birthday" : String) ≠ "stats_current"), dlookup_dset_ne _ _ _ _ (by decide : ("birthday" : String) ≠ "first_license"), dlookup_dset_ne _ _ _ _ (by decide : ("birthday" : String) ≠ "weight"), dlookup_dset_ne _ _ _ _ (by decide : ("birthday" : String) ≠ "height"), dlookup_dset_self]

lemma dlookup_clearJockeyFields_height (h : Dict) :
    dlookup (clearJockeyFields h) "height" = some (.str "") := by
  unfold clearJockeyFields
  rw [dlookup_dset_ne _ _ _ _ (by decide : ("height" : String) ≠ "stats_total"), dlookup_dset_ne _ _ _ _ (by decide : ("height" : String) ≠ "stats_current"), dlookup_dset_ne _ _ _ _ (by decide : ("height" : String) ≠ "first_license"), dlookup_dset_ne _ _ _ _ (by decide : ("height" : String) ≠ "weight"), dlookup_dset_self]

lemma dlookup_clearJockeyFields_weight (h : Dict) :
    dlookup (clearJockeyFields h) "weight" = some (.str "") := by
  unfold clearJockeyFields
  rw [dlookup_dset_ne _ _ _ _ (by decide : ("weight" : String) ≠ "stats_total"), dlookup_dset_ne _ _ _ _ (by decide : ("weight" : String) ≠ "stats_current"), dlookup_dset_ne _ _ _ _ (by decide : ("weight" : String) ≠ "first_license"), dlookup_dset_self]

lemma dlookup_clearJockeyFields_first_license (h : Dict) :
    dlookup (clearJockeyFields h) "first_license" = some (.str "") := by
  unfold clearJockeyFields
  rw [dlookup_dset_ne _ _ _ _ (by decide : ("first_license" : String) ≠ "stats_total"), dlookup_dset_ne _ _ _ _ (by decide : ("first_license" : String) ≠ "stats_current"), dlookup_dset_self]

lemma dlookup_clearJockeyFields_stats_current (h : Dict) :
    dlookup (clearJockeyFields h) "stats_current" = some (.obj []) := by
  unfold clearJockeyFields
  rw [dlookup_dset_ne _ _ _ _ (by decide : ("stats_current" : String) ≠ "stats_total"), dlookup_dset_self]

lemma dlookup_clearJockeyFields_stats_total (h : Dict) :
    dlookup (clearJockeyFields h) "stats_total" = some (.obj []) := by
  unfold clearJockeyFields
  rw [dlookup_dset_self]

lemma dlookup_jockeyUpdate_birthday (h : Dict) (det : JockeyDetail) :
    dlookup (jockeyUpdate h det) "birthday" = some (.str det.birthday) := by
  unfold jockeyUpdate
  rw [dlookup_dset_ne _ _ _ _ (by decide : ("birthday" : String) ≠ "stats_total"), dlookup_dset_ne _ _ _ _ (by decide : ("birthday" : String) ≠ "stats_current"), dlookup_dset_ne _ _ _ _ (by decide : ("birthday" : String) ≠ "first_license"), dlookup_dset_ne _ _ _ _ (by decide : ("birthday" : String) ≠ "weight"), dlookup_dset_ne _ _ _ _ (by decide : ("birthday" : String) ≠ "height"), dlookup_dset_self]

lemma dlookup_jockeyUpdate_height (h : Dict) (det : JockeyDetail) :
    dlookup (jockeyUpdate h det) "height" = some (.str det.height) := by
  unfold jockeyUpdate
  rw [dlookup_dset_ne _ _ _ _ (by decide : ("height" : String) ≠ "stats_total"), dlookup_dset_ne _ _ _ _ (by decide : ("height" : String) ≠ "stats_current"), dlookup_dset_ne _ _ _ _ (by decide : ("height" : String) ≠ "first_license"), dlookup_dset_ne _ _ _ _ (by decide : ("height" : String) ≠ "weight"), dlookup_dset_self]

lemma dlookup_jockeyUpdate_weight (h : Dict) (det : JockeyDetail) :
    dlookup (jockeyUpdate h det) "weight" = some (.str det.weight) := by
  unfold jockeyUpdate
  rw [dlookup_dset_ne _ _ _ _ (by decide : ("weight" : String) ≠ "stats_total"), dlookup_dset_ne _ _ _ _ (by decide : ("weight" : String) ≠ "stats_current"), dlookup_dset_ne _ _ _ _ (by decide : ("weight" : String) ≠ "first_license"), dlookup_dset_self]

lemma dlookup_jockeyUpdate_first_license (h : Dict) (det : JockeyDetail) :
    dlookup (jockeyUpdate h det) "first_license" = some (.str det.first_license) := by
  unfold jockeyUpdate
  rw [dlookup_dset_ne _ _ _ _ (by decide : ("first_license" : String) ≠ "stats_total"), dlookup_dset_ne _ _ _ _ (by decide : ("first_license" : String) ≠ "stats_current"), dlookup_dset_self]

lemma dlookup_jockeyUpdate_stats_current (h : Dict) (det : JockeyDetail) :
    dlookup (jockeyUpdate h det) "stats_current" = some (det.stats_current) := by
  unfold jockeyUpdate
  rw [dlookup_dset_ne _ _ _ _ (by decide : ("stats_current" : String) ≠ "stats_total"), dlookup_dset_self]

lemma dlookup_jockeyUpdate_stats_total (h : Dict) (det : JockeyDetail) :
    dlookup (jockeyUpdate h det) "stats_total" = some (det.stats_total) := by
  unfold jockeyUpdate
  rw [dlookup_dset_self]

lemma dlookup_clear_frame (h : Dict) (k : String) (hk : k ∉ JOCKEY_KEYS) :
    dlookup (clearJockeyFields h) k = dlookup h k := by
  simp only [JOCKEY_KEYS, List.mem_cons, List.not_mem_nil, or_false, not_or] at hk
  obtain ⟨h1, h2, h3, h4, h5, h6⟩ := hk
  unfold clearJockeyFields
  rw [dlookup_dset_ne _ _ _ _ h6, dlookup_dset_ne _ _ _ _ h5, dlookup_dset_ne _ _ _ _ h4,
    dlookup_dset_ne _ _ _ _ h3, dlookup_dset_ne _ _ _ _ h2, dlookup_dset_ne _ _ _ _ h1]

lemma dlookup_update_frame (h : Dict) (det : JockeyDetail) (k : String)
    (hk : k ∉ JOCKEY_KEYS) :
    dlookup (jockeyUpdate h det) k = dlookup h k := by
  simp only [JOCKEY_KEYS, List.mem_cons, List.not_mem_nil, or_false, not_or] at hk
  obtain ⟨h1, h2, h3, h4, h5, h6⟩ := hk
  unfold jockeyUpdate
  rw [dlookup_dset_ne _ _ _ _ h6, dlookup_dset_ne _ _ _ _ h5, dlookup_dset_ne _ _ _ _ h4,
    dlookup_dset_ne _ _ _ _ h3, dlookup_dset_ne _ _ _ _ h2, dlookup_dset_ne _ _ _ _ h1]

lemma getStr_clear_jockey (h : Dict) :
    getStr (clearJockeyFields h) "jockey" = getStr h "jockey" := by
  rw [getStr, getStr, dlookup_clear_frame h "jockey" (by decide)]

lemma getStr_clear_jockey_url (h : Dict) :
    getStr (clearJockeyFields h) "jockey_url" = getStr h "jockey_url" := by
  rw [getStr, getStr, dlookup_clear_frame h "jockey_url" (by decide)]

lemma jstep_fst (oracle : String → Option JockeyDetail) (st : JState) (h : Dict) :
    (jstep oracle st h).1 = clearJockeyFields h := by
  unfold jstep
  by_cases hc : getStr (clearJockeyFields h) "jockey" = ""
      ∨ getStr (clearJockeyFields h) "jockey_url" = ""
      ∨ (alookup st.seen (getStr (clearJockeyFields h) "jockey")).isSome
  · simp [hc]
  · rcases ho : oracle (getStr (clearJockeyFields h) "jockey_url") with _ | det <;>
      simp [hc, ho]

lemma mapAccum_fst_of_const {σ α : Type} (f : σ → α → α × σ) (g : α → α)
    (hf : ∀ st a, (f st a).1 = g a) (l : List α) :
    ∀ st, (mapAccum f st l).1 = l.map g := by
  induction l with
  | nil => intro st; rfl
  | cons a as ih => intro st; simp [mapAccum, hf, ih]

lemma mapAccum_snd_append {σ α : Type} (f : σ → α → α × σ) (l₁ l₂ : List α) :
    ∀ st, (mapAccum f st (l₁ ++ l₂)).2 = (mapAccum f (mapAccum f st l₁).2 l₂).2 := by
  induction l₁ with
  | nil => intro st; rfl
  | cons a as ih => intro st; simp [mapAccum, ih]

lemma jraceStep_fst (oracle : String → Option JockeyDetail) (st : JState) (r : RaceJ) :
    (jraceStep oracle st r).1 = { r with horses := r.horses.map clearJockeyFields } := by
  simp [jraceStep, mapAccum_fst_of_const _ _ (fun st h => jstep_fst oracle st h)]

lemma jvenueStep_fst (oracle : String → Option JockeyDetail) (st : JState) (v : VenueJ) :
    (jvenueStep oracle st v).1
      = { v with races := v.races.map (fun r =>
            { r with horses := r.horses.map clearJockeyFields }) } := by
  simp [jvenueStep, mapAccum_fst_of_const _ _ (fun st r => jraceStep_fst oracle st r)]

lemma mapAccum_snd_jrace (oracle : String → Option JockeyDetail) (rs : List RaceJ) :
    ∀ st, (mapAccum (jraceStep oracle) st rs).2
      = (mapAccum (jstep oracle) st (rs.flatMap RaceJ.horses)).2 := by
  induction rs with
  | nil => intro st; rfl
  | cons r rs ih =>
    intro st
    show (mapAccum (jraceStep oracle) (jraceStep oracle st r).2 rs).2 = _
    rw [ih, List.flatMap_cons, mapAccum_snd_append]
    rfl

lemma mapAccum_snd_jvenue (oracle : String → Option JockeyDetail) (vs : List VenueJ) :
    ∀ st, (mapAccum (jvenueStep oracle) st vs).2
      = (mapAccum (jstep oracle) st
          (vs.flatMap (fun v => v.races.flatMap RaceJ.horses))).2 := by
  induction vs with
  | nil => intro st; rfl
  | cons v vs ih =>
    intro st
    show (mapAccum (jvenueStep oracle) (jvenueStep oracle st v).2 vs).2 = _
    rw [ih, List.flatMap_cons, mapAccum_snd_append]
    show (mapAccum (jstep oracle) (mapAccum (jraceStep oracle) st v.races).2 _).2 = _
    rw [mapAccum_snd_jrace]

lemma jpass1_snd (oracle : String → Option JockeyDetail) (d : RData) :
    (jpass1 oracle d).2 = (mapAccum (jstep oracle) ⟨[], []⟩ (flatHorses d)).2 := by
  show (mapAccum (jvenueStep oracle) ⟨[], []⟩ d.venues).2 = _
  rw [mapAccum_snd_jvenue]
  rfl

lemma jpass1_fst_venues (oracle : String → Option JockeyDetail) (d : RData) :
    (jpass1 oracle d).1.venues
      = d.venues.map (fun v =>
          { v with races := v.races.map (fun r =>
              { r with horses := r.horses.map clearJockeyFields }) }) := by
  have hv : (jpass1 oracle d).1.venues
      = (mapAccum (jvenueStep oracle) ⟨[], []⟩ d.venues).1 := rfl
  rw [hv, mapAccum_fst_of_const _ _ (fun st v => jvenueStep_fst oracle st v)]

lemma jpass2_venues (seen : List (String × JockeyDetail)) (d : RData) :
    (jpass2 seen d).venues
      = d.venues.map (fun v =>
          { v with races := v.races.map (fun r =>
              { r with horses := r.horses.map (jattach seen) }) }) := rfl

lemma flatHorses_phase (oracle : String → Option JockeyDetail) (d : RData) :
    flatHorses (fetchJockeyPhase oracle d).1
      = (flatHorses d).map
          (fun h => jattach (jpass1 oracle d).2.seen (clearJockeyFields h)) := by
  show venuesHorses (jpass2 (jpass1 oracle d).2.seen (jpass1 oracle d).1).venues = _
  rw [jpass2_venues, venuesHorses_map_horses, jpass1_fst_venues,
    venuesHorses_map_horses, List.map_map]
  rfl

lemma jattach_clear_fields (seen : List (String × JockeyDetail)) (h : Dict) :
    (∀ k, k ∉ JOCKEY_KEYS → dlookup (jattach seen (clearJockeyFields h)) k = dlookup h k)
    ∧ (match alookup seen (getStr h "jockey") with
       | some det =>
           dlookup (jattach seen (clearJockeyFields h)) "birthday" = some (.str det.birthday)
           ∧ dlookup (jattach seen (clearJockeyFields h)) "height" = some (.str det.height)
           ∧ dlookup (jattach seen (clearJockeyFields h)) "weight" = some (.str det.weight)
           ∧ dlookup (jattach seen (clearJockeyFields h)) "first_license"
               = some (.str det.first_license)
           ∧ dlookup (jattach seen (clearJockeyFields h)) "stats_current"
               = some det.stats_current
           ∧ dlookup (jattach seen (clearJockeyFields h)) "stats_total"
               = some det.stats_total
       | none =>
           dlookup (jattach seen (clearJockeyFields h)) "birthday" = some (.str "")
           ∧ dlookup (jattach seen (clearJockeyFields h)) "height" = some (.str "")
           ∧ dlookup (jattach seen (clearJockeyFields h)) "weight" = some (.str "")
           ∧ dlookup (jattach seen (clearJockeyFields h)) "first_license" = some (.str "")
           ∧ dlookup (jattach seen (clearJockeyFields h)) "stats_current" = some (.obj [])
           ∧ dlookup (jattach seen (clearJockeyFields h)) "stats_total" = some (.obj [])) := by
  unfold jattach
  rw [getStr_clear_jockey]
  rcases hsn : alookup seen (getStr h "jockey") with _ | det <;> simp only [hsn]
  · exact ⟨fun k hk => dlookup_clear_frame h k hk,
      dlookup_clearJockeyFields_birthday h, dlookup_clearJockeyFields_height h,
      dlookup_clearJockeyFields_weight h, dlookup_clearJockeyFields_first_license h,
      dlookup_clearJockeyFields_stats_current h, dlookup_clearJockeyFields_stats_total h⟩
  · refine ⟨fun k hk => ?_, dlookup_jockeyUpdate_birthday _ det,
      dlookup_jockeyUpdate_height _ det, dlookup_jockeyUpdate_weight _ det,
      dlookup_jockeyUpdate_first_license _ det, dlookup_jockeyUpdate_stats_current _ det,
      dlookup_jockeyUpdate_stats_total _ det⟩
    rw [dlookup_update_frame _ _ _ hk]
    exact dlookup_clear_frame h k hk

/-- C9: with `fetch_jockey_detail` set, the enrichment phase rewrites every
horse of the flat `venues` view: the six fields `birthday`, `height`,
`weight`, `first_license`, `stats_current`, `stats_total` are overwritten
regardless of what the racecard parse or horse-detail enrichment had stored
there (the carried-weight `weight` and the horse's `birthday` included) —
with the values of the jockey's successfully fetched detail when its name
is in the cache, and with empty values otherwise — while every other key,
the per-day view and the base date are untouched. -/
theorem jockey_phase_clears_then_attaches (oracle : String → Option JockeyDetail)
    (d : RData) :
    List.Forall₂ (fun h h2 =>
        (∀ k, k ∉ JOCKEY_KEYS → dlookup h2 k = dlookup h k)
        ∧ (match alookup (fetchJockeyPhase oracle d).2.seen (getStr h "jockey") with
           | some det =>
               dlookup h2 "birthday" = some (.str det.birthday)
               ∧ dlookup h2 "height" = some (.str det.height)
               ∧ dlookup h2 "weight" = some (.str det.weight)
               ∧ dlookup h2 "first_license" = some (.str det.first_license)
               ∧ dlookup h2 "stats_current" = some det.stats_current
               ∧ dlookup h2 "stats_total" = some det.stats_total
           | none =>
               dlookup h2 "birthday" = some (.str "")
               ∧ dlookup h2 "height" = some (.str "")
               ∧ dlookup h2 "weight" = some (.str "")
               ∧ dlookup h2 "first_license" = some (.str "")
               ∧ dlookup h2 "stats_current" = some (.obj [])
               ∧ dlookup h2 "stats_total" = some (.obj [])))
      (flatHorses d) (flatHorses (fetchJockeyPhase oracle d).1)
    ∧ (fetchJockeyPhase oracle d).1.days = d.days
    ∧ (fetchJockeyPhase oracle d).1.date = d.date := by
  refine ⟨?_, rfl, rfl⟩
  rw [flatHorses_phase]
  exact List.forall₂_map_right_iff.2
    (List.forall₂_same.2 (fun h _ => jattach_clear_fields (jpass1 oracle d).2.seen h))

lemma alookup_append_left {β : Type} (l l2 : List (String × β)) (k : String) (x : β)
    (hx : alookup l k = some x) : alookup (l ++ l2) k = some x := by
  induction l with
  | nil => cases hx
  | cons kv t ih =>
    obtain ⟨k1, v1⟩ := kv
    by_cases he : k1 = k
    · subst he
      simp only [List.cons_append, alookup, if_pos rfl] at hx ⊢
      exact hx
    · simp only [List.cons_append, alookup, if_neg he] at hx ⊢
      exact ih hx

lemma alookup_append_none {β : Type} (l l2 : List (String × β)) (k : String)
    (hx : alookup l k = none) : alookup (l ++ l2) k = alookup l2 k := by
  induction l with
  | nil => rfl
  | cons kv t ih =>
    obtain ⟨k1, v1⟩ := kv
    by_cases he : k1 = k
    · subst he
      simp only [alookup, if_pos rfl] at hx
      cases hx
    · simp only [List.cons_append, alookup, if_neg he] at hx ⊢
      exact ih hx

/-- Case analysis of one first-loop step: either the horse is skipped (empty
name, empty URL, or its jockey already cached) and the state is unchanged,
or a fetch is attempted — logged either way, cached only on success. -/
lemma jstep_snd (oracle : String → Option JockeyDetail) (st : JState) (h : Dict) :
    ((getStr h "jockey" = "" ∨ getStr h "jockey_url" = ""
        ∨ (alookup st.seen (getStr h "jockey")).isSome)
      ∧ (jstep oracle st h).2 = st)
    ∨ (getStr h "jockey" ≠ "" ∧ getStr h "jockey_url" ≠ ""
        ∧ alookup st.seen (getStr h "jockey") = none
        ∧ ((∃ det, oracle (getStr h "jockey_url") = some det
              ∧ (jstep oracle st h).2
                  = ⟨st.seen ++ [(getStr h "jockey", det)],
                     st.log ++ [getStr h "jockey"]⟩)
            ∨ (oracle (getStr h "jockey_url") = none
              ∧ (jstep oracle st h).2
                  = ⟨st.seen, st.log ++ [getStr h "jockey"]⟩))) := by
  simp only [jstep]
  rw [getStr_clear_jockey, getStr_clear_jockey_url]
  by_cases hc : getStr h "jockey" = "" ∨ getStr h "jockey_url" = ""
      ∨ (alookup st.seen (getStr h "jockey")).isSome
  · exact Or.inl ⟨hc, by simp [hc]⟩
  · push_neg at hc
    obtain ⟨h1, h2, h3⟩ := hc
    have h3n : alookup st.seen (getStr h "jockey") = none :=
      Option.not_isSome_iff_eq_none.1 h3
    refine Or.inr ⟨h1, h2, h3n, ?_⟩
    rcases ho : oracle (getStr h "jockey_url") with _ | det
    · exact Or.inr ⟨rfl, by simp [h1, h2, h3n, ho]⟩
    · exact Or.inl ⟨det, rfl, by simp [h1, h2, h3n, ho]⟩

/-- Once a jockey name is cached, no later horse logs another fetch for it
and its cache entry never changes. -/
lemma foldState_count_of_seen (oracle : String → Option JockeyDetail) (name : String)
    (hs : List Dict) :
    ∀ st : JState, (alookup st.seen name).isSome →
      ((mapAccum (jstep oracle) st hs).2.log.count name = st.log.count name)
      ∧ alookup (mapAccum (jstep oracle) st hs).2.seen name = alookup st.seen name := by
  induction hs with
  | nil => intro st _; exact ⟨rfl, rfl⟩
  | cons h hs ih =>
    intro st hseen
    obtain ⟨x, hx⟩ := Option.isSome_iff_exists.1 hseen
    show ((mapAccum (jstep oracle) (jstep oracle st h).2 hs).2.log.count name
        = st.log.count name)
      ∧ alookup (mapAccum (jstep oracle) (jstep oracle st h).2 hs).2.seen name
          = alookup st.seen name
    rcases jstep_snd oracle st h with ⟨_, heq⟩ | ⟨h1, h2, h3, hfetch⟩
    · rw [heq]
      exact ih st hseen
    · have hne : getStr h "jockey" ≠ name := by
        intro he
        rw [he, hx] at h3
        cases h3
      rcases hfetch with ⟨det, _, heq⟩ | ⟨_, heq⟩ <;> rw [heq]
      · have hkeep : alookup (st.seen ++ [(getStr h "jockey", det)]) name = some x :=
          alookup_append_left _ _ _ _ hx
        obtain ⟨hcount, hseen2⟩ :=
          ih ⟨st.seen ++ [(getStr h "jockey", det)], st.log ++ [getStr h "jockey"]⟩
            (by rw [hkeep]; rfl)
        refine ⟨?_, ?_⟩
        · rw [hcount]
          simp [List.count_append, List.count_cons, hne]
        · rw [hseen2, hkeep, hx]
      · obtain ⟨hcount, hseen2⟩ :=
          ih ⟨st.seen, st.log ++ [getStr h "jockey"]⟩ hseen
        refine ⟨?_, ?_⟩
        · rw [hcount]
          simp [List.count_append, List.count_cons, hne]
        · exact hseen2

/-- Eligibility of a horse to trigger a fetch for jockey `name`: it carries
that (non-empty) jockey name and a non-empty jockey URL. -/
def eligB (name : String) (h : Dict) : Bool :=
  decide (getStr h "jockey" = name) && decide (getStr h "jockey_url" ≠ "")

/-- If the first eligible horse's fetch succeeds, exactly one fetch for the
name is logged over the whole traversal and the cache ends with its result. -/
lemma foldState_count_first_success (oracle : String → Option JockeyDetail)
    (name : String) (hname : name ≠ "") (hs : List Dict) :
    ∀ st : JState, alookup st.seen name = none →
      ∀ h0, (hs.filter (eligB name)).head? = some h0 →
      ∀ det, oracle (getStr h0 "jockey_url") = some det →
      ((mapAccum (jstep oracle) st hs).2.log.count name = st.log.count name + 1)
      ∧ alookup (mapAccum (jstep oracle) st hs).2.seen name = some det := by
  induction hs with
  | nil =>
    intro st _ h0 hh
    cases hh
  | cons h hs ih =>
    intro st hseen h0 hh det ho
    show ((mapAccum (jstep oracle) (jstep oracle st h).2 hs).2.log.count name
        = st.log.count name + 1)
      ∧ alookup (mapAccum (jstep oracle) (jstep oracle st h).2 hs).2.seen name = some det
    by_cases he : eligB name h
    · rw [List.filter_cons_of_pos he] at hh
      have hh0 : h = h0 := Option.some.inj hh
      rw [← hh0] at ho
      simp only [eligB, Bool.and_eq_true, decide_eq_true_eq] at he
      obtain ⟨hj, hu⟩ := he
      rcases jstep_snd oracle st h with ⟨hc, _⟩ | ⟨h1, h2, h3, hfetch⟩
      · exfalso
        rcases hc with hc | hc | hc
        · rw [hj] at hc
          exact hname hc
        · exact hu hc
        · rw [hj, hseen] at hc
          simp at hc
      · rcases hfetch with ⟨det2, ho2, heq⟩ | ⟨ho2, heq⟩
        · have hdet : det2 = det := by
            rw [ho2] at ho
            exact Option.some.inj ho
          subst hdet
          rw [heq, hj]
          have hkeep : alookup (st.seen ++ [(name, det2)]) name = some det2 :=
            alookup_append_right _ _ _ hseen
          obtain ⟨hcount, hseen2⟩ :=
            foldState_count_of_seen oracle name hs
              ⟨st.seen ++ [(name, det2)], st.log ++ [name]⟩ (by rw [hkeep]; rfl)

          refine ⟨?_, ?_⟩
          · rw [hcount]
            simp [List.count_append, List.count_cons]
          · rw [hseen2, hkeep]
        · rw [ho2] at ho
          cases ho
    · rw [List.filter_cons_of_neg he] at hh
      rcases jstep_snd oracle st h with ⟨_, heq⟩ | ⟨h1, h2, h3, hfetch⟩
      · rw [heq]
        exact ih st hseen h0 hh det ho
      · have hne : getStr h "jockey" ≠ name := by
          intro hjn
          apply he
          simp [eligB, hjn, h2]
        rcases hfetch with ⟨det2, _, heq⟩ | ⟨_, heq⟩ <;> rw [heq]
        · have hseen2 : alookup (st.seen ++ [(getStr h "jockey", det2)]) name = none := by
            rw [alookup_append_none _ _ _ hseen]
            simp [alookup, hne]
          obtain ⟨hcount, hs2⟩ :=
            ih ⟨st.seen ++ [(getStr h "jockey", det2)], st.log ++ [getStr h "jockey"]⟩
              hseen2 h0 hh det ho
          refine ⟨?_, hs2⟩
          rw [hcount]
          simp [List.count_append, List.count_cons, hne]
        · obtain ⟨hcount, hs2⟩ :=
            ih ⟨st.seen, st.log ++ [getStr h "jockey"]⟩ hseen h0 hh det ho
          refine ⟨?_, hs2⟩
          rw [hcount]
          simp [List.count_append, List.count_cons, hne]

lemma jattach_clear_getStr_jockey (seen : List (String × JockeyDetail)) (h : Dict) :
    getStr (jattach seen (clearJockeyFields h)) "jockey" = getStr h "jockey" := by
  have hf := (jattach_clear_fields seen h).1 "jockey" (by decide)
  rw [getStr, getStr, hf]

/-- C3 (amended): when the detail fetch of the first horse eligible for a
jockey name succeeds, the jockey's detail page is fetched exactly once in
the whole scrape call, and every horse sharing that jockey name ends with
identical jockey enrichment fields.  (As stated the claim is false: a
*failed* fetch is not cached, so the fetch is retried at every later horse
sharing the name — see the counterexample.) -/
theorem jockey_fetch_once_on_success (oracle : String → Option JockeyDetail)
    (d : RData) (name : String) (hname : name ≠ "")
    (hfirst : ((((flatHorses d).filter (eligB name)).head?).bind
        (fun h0 => oracle (getStr h0 "jockey_url"))).isSome = true) :
    (fetchJockeyPhase oracle d).2.log.count name = 1
    ∧ (∀ h1 h2, h1 ∈ flatHorses (fetchJockeyPhase oracle d).1 →
        h2 ∈ flatHorses (fetchJockeyPhase oracle d).1 →
        getStr h1 "jockey" = name → getStr h2 "jockey" = name →
        (dlookup h1 "birthday", dlookup h1 "height", dlookup h1 "weight",
          dlookup h1 "first_license", dlookup h1 "stats_current",
          dlookup h1 "stats_total")
        = (dlookup h2 "birthday", dlookup h2 "height", dlookup h2 "weight",
          dlookup h2 "first_license", dlookup h2 "stats_current",
          dlookup h2 "stats_total")) := by
  constructor
  · rcases hh : ((flatHorses d).filter (eligB name)).head? with _ | h0
    · rw [hh] at hfirst
      cases hfirst
    · rw [hh] at hfirst
      rcases ho : oracle (getStr h0 "jockey_url") with _ | det
      · rw [Option.some_bind, ho] at hfirst
        cases hfirst
      · have hmain := foldState_count_first_success oracle name hname (flatHorses d)
          ⟨[], []⟩ rfl h0 hh det ho
        show (jpass1 oracle d).2.log.count name = 1
        rw [jpass1_snd, hmain.1]
        rfl
  · intro h1 h2 hm1 hm2 hn1 hn2
    rw [flatHorses_phase] at hm1 hm2
    rcases List.mem_map.1 hm1 with ⟨g1, -, rfl⟩
    rcases List.mem_map.1 hm2 with ⟨g2, -, rfl⟩
    rw [jattach_clear_getStr_jockey] at hn1 hn2
    have H1 := (jattach_clear_fields (jpass1 oracle d).2.seen g1).2
    have H2 := (jattach_clear_fields (jpass1 oracle d).2.seen g2).2
    rw [hn1] at H1
    rw [hn2] at H2
    rcases hsn : alookup (jpass1 oracle d).2.seen name with _ | det <;>
      rw [hsn] at H1 H2 <;>
      obtain ⟨a1, b1, c1, d1, e1, f1⟩ := H1 <;>
      obtain ⟨a2, b2, c2, d2, e2, f2⟩ := H2 <;>
      rw [a1, b1, c1, d1, e1, f1, a2, b2, c2, d2, e2, f2]

/-- A jockey detail used by the concrete runs. -/
def exJDetail : JockeyDetail :=
  { birthday := "1990年1月1日", height := "160", weight := "51",
    first_license := "2010", stats_current := .obj [("headersRow", .str "x")],
    stats_total := .obj [] }

/-- An oracle whose fetch of the shared jockey URL succeeds. -/
def okOracle : String → Option JockeyDetail :=
  fun u => if u = "https://x/j" then some exJDetail else none

/-- An oracle whose every fetch fails (network error swallowed by the
`except` clause). -/
def failOracle : String → Option JockeyDetail := fun _ => none

def exJHorse1 : Dict :=
  [("name", .str "A"), ("jockey", .str "J"), ("jockey_url", .str "https://x/j"),
   ("weight", .str "57"), ("birthday", .str "2020年生")]

def exJHorse2 : Dict :=
  [("name", .str "B"), ("jockey", .str "J"), ("jockey_url", .str "https://x/j"),
   ("weight", .str "55")]

/-- Two horses sharing jockey `"J"` in one race. -/
def exJData : RData :=
  { date := "", days := [],
    venues := [{ races := [{ horses := [exJHorse1, exJHorse2], extra := [] }],
                 extra := [] }] }

/-- C3 counterexample: with two horses sharing jockey `"J"` and a failing
fetch, the scrape attempts the fetch twice (`jockey_seen` records only
successes, so the second horse retries) — not "exactly once" as claimed. -/
theorem jockey_fetch_retried_on_failure :
    (fetchJockeyPhase failOracle exJData).2.log.count "J" = 2 := rfl

/-- Witness for C3 (amended): with the same two horses and a succeeding
fetch, exactly one fetch for `"J"` is logged. -/
theorem jockey_fetch_once_on_success_witness :
    (fetchJockeyPhase okOracle exJData).2.log.count "J" = 1 :=
  (jockey_fetch_once_on_success okOracle exJData "J" (by decide) rfl).1

end Keiba
